import Mathlib

/-!
Verification of the fleet-document tracker (`app.py` + `reminders.py`).

The development shallowly embeds the expiry-state / notification engine:
the traffic-light classifier `state_from_days`, the document status
resolver `get_doc_status`, the per-vehicle urgency aggregator
`get_vehicle_urgency`, and the reminder run of `reminders.py`
(`scanItems` / `send_messages` / `mainRun`).

Python `datetime` parsing is treated as an external collaborator: it is
an explicit function argument `parse : String → Option Int` mapping a
raw date string to a day ordinal (`None` on parse failure), and `today`
is the current day ordinal.  Machine-level details (SQLite, SMTP) are
modelled by a store function `Nat → Option Snap` and a per-message
success oracle `sendOk : Nat → Bool`.
-/

set_option linter.unusedVariables false

namespace Flota

/-- The five required document types (`DOC_TYPES`, identical in both files). -/
def DOC_TYPES : List String :=
  [ "Permiso de Circulación"
  , "Cert. Revision Tecnica c/6 meses"
  , "Cert. Emision Contaminantes c/6 meses"
  , "SOAP (1 vez al año)"
  , "Mantención General" ]

/-- `state_from_days` from `reminders.py` (lines 39-46). -/
def state_from_days (d : Option Int) : String :=
  match d with
  | none => "Rojo"
  | some d => if d ≤ 15 then "Rojo" else if d ≤ 30 then "Amarillo" else "Verde"

/-- `state_from_days` from `app.py` (lines 201-215); also returns the CSS badge. -/
def state_from_days_app (d : Option Int) : String × String :=
  match d with
  | none => ("Rojo", "badge-red")
  | some d =>
    if d ≤ 15 then ("Rojo", "badge-red")
    else if d ≤ 30 then ("Amarillo", "badge-yellow")
    else ("Verde", "badge-green")

/-- `human_days_label` (identical in both files). -/
def human_days_label (d : Option Int) : String :=
  match d with
  | none => "No registrado"
  | some d =>
    if d < 0 then
      if d.natAbs = 1 then "Vencido hace 1 día"
      else "Vencido hace " ++ toString d.natAbs ++ " días"
    else if d = 0 then "Hoy expira"
    else if d = 1 then "1 día para expirar"
    else toString d ++ " días para expirar"

/-- The escalation decision of `reminders.py` `main` (lines 159-162):
`want_state_notify` is set iff the stored `last_state` is truthy, differs
from the fresh state, and the ordered pair is `(Verde, Amarillo)` or
`(Amarillo, Rojo)`. -/
def want_state_notify (last_state : Option String) (state : String) : Bool :=
  match last_state with
  | none => false
  | some ls =>
    if ls ≠ "" ∧ ls ≠ state then
      (decide (ls = "Verde" ∧ state = "Amarillo") ||
       decide (ls = "Amarillo" ∧ state = "Rojo"))
    else false

/-- The five-day decision of `reminders.py` `main` (line 164):
`want_5_notify = (d == 5) and (last_notified_5_expiry != doc["fecha_vencimiento"])`. -/
def want_5_notify (d : Option Int) (last_notified_5_expiry : Option String)
    (fecha : String) : Bool :=
  (d == some 5) && (last_notified_5_expiry != some fecha)

/-- The escalation decision of the inline check in `app.py` (lines 851-854). -/
def want_state_notify_app (last_state : Option String) (state : String) : Bool :=
  match last_state with
  | none => false
  | some ls =>
    if ls ≠ "" ∧ ls ≠ state then
      (decide (ls = "Verde" ∧ state = "Amarillo") ||
       decide (ls = "Amarillo" ∧ state = "Rojo"))
    else false

/-- The five-day decision of the inline check in `app.py` (line 856). -/
def want_5_notify_app (d : Option Int) (last_notified_5_expiry : Option String)
    (fecha : String) : Bool :=
  (d == some 5) && (last_notified_5_expiry != some fecha)

/-- A row of the `documentos` table, as consulted by the checks. -/
structure DocRow where
  id : Nat
  tipo : String
  fecha_vencimiento : Option String
deriving Repr, DecidableEq

/-- The dictionary returned by `get_doc_status` in `app.py`. -/
structure DocStatus where
  expiry : Option Int
  days : Option Int
  state : String
  badge : String
  label : String
deriving Repr, DecidableEq

/-- `get_doc_status` from `app.py` (lines 303-321).  `parse` stands for
the Python `parse_iso_date` collaborator (day ordinal of the parsed
date, `none` if unparseable); `today` is the current day ordinal, so
`days_left` is `parsed - today`. -/
def get_doc_status (parse : String → Option Int) (today : Int)
    (doc : Option DocRow) : DocStatus :=
  match doc with
  | none => ⟨none, none, "Rojo", "badge-red", "No registrado"⟩
  | some dr =>
    match dr.fecha_vencimiento with
    | none => ⟨none, none, "Rojo", "badge-red", "No registrado"⟩
    | some f =>
      if f = "" then ⟨none, none, "Rojo", "badge-red", "No registrado"⟩
      else
        let expiry := parse f
        let d := expiry.map (fun e => e - today)
        ⟨expiry, d, (state_from_days_app d).1, (state_from_days_app d).2,
         human_days_label d⟩

/-- The rank score a document type contributes in `get_vehicle_urgency`:
`d_cmp = -9999 if d is None else int(d)` (`app.py` lines 336-339). -/
def d_cmpOf (parse : String → Option Int) (today : Int)
    (docs : String → Option DocRow) (tipo : String) : Int :=
  match (get_doc_status parse today (docs tipo)).days with
  | none => -9999
  | some d => d

/-- One iteration of the `for tipo in DOC_TYPES` loop of
`get_vehicle_urgency` (`app.py` lines 334-344). -/
def urgStep (parse : String → Option Int) (today : Int)
    (docs : String → Option DocRow)
    (best : Int × String × Option Int) (tipo : String) :
    Int × String × Option Int :=
  if d_cmpOf parse today docs tipo < best.1 then
    (d_cmpOf parse today docs tipo, tipo,
     (get_doc_status parse today (docs tipo)).expiry)
  else best

/-- `get_vehicle_urgency` from `app.py` (lines 324-347); the starting
accumulator is `(10**9, "", None)`. -/
def get_vehicle_urgency (parse : String → Option Int) (today : Int)
    (docs : String → Option DocRow) : Int × String × Option Int :=
  DOC_TYPES.foldl (urgStep parse today docs) (1000000000, "", none)

/-- Concrete parse collaborator for the urgency counterexample: the raw
string `"OLD"` parses to a date 20000 days before day 0. -/
def parseCE : String → Option Int := fun s => if s = "OLD" then some (-20000) else none

/-- Concrete documents for the urgency counterexample: every required
type is present with expiry string `"OLD"`. -/
def docsCE : String → Option DocRow := fun tipo => some ⟨0, tipo, some "OLD"⟩

/-- A row of the `notificaciones` table (`ensure_notifications_table`). -/
structure Snap where
  last_state : Option String
  last_expiry : Option String
  last_notified_state : Option String
  last_notified_5_expiry : Option String
  last_checked_at : Option String
deriving Repr, DecidableEq

/-- A row of the `vehiculos` table as used by the reminder run. -/
structure Vehicle where
  id : Nat
  patente : Option String
  proyecto : Option String
deriving Repr, DecidableEq

/-- One entry of the `pending` list built by `reminders.py` `main`
(line 133): `(doc_id, subj, body, state, expiry_s, want_state_notify,
want_5_notify)`. -/
structure PendingMsg where
  doc_id : Nat
  subj : String
  body : String
  state : String
  expiry_s : String
  want_state : Bool
  want_5 : Bool
deriving Repr, DecidableEq

/-- The `notificaciones` table, keyed by `documento_id`. -/
def Store : Type := Nat → Option Snap

/-- Row upsert for the `notificaciones` table. -/
def upd (store : Store) (id : Nat) (s : Snap) : Store :=
  fun j => if j = id then some s else store j

/-- The repository and clock collaborators consumed by a check run:
the ordered vehicle list, the per-vehicle documents keyed by type
(`docs_by_type.get(tipo)`), the date-parsing collaborator, today's day
ordinal, and the `now_iso()` timestamp string. -/
structure Env where
  vehicles : List Vehicle
  docsOf : Nat → String → Option DocRow
  parse : String → Option Int
  today : Int
  now : String

/-- The `if not doc or not doc["fecha_vencimiento"]: continue` guard of
the loop (`reminders.py` lines 147-149): the document actually processed
together with its (truthy) expiry string, if any. -/
def activeDoc (env : Env) (v : Vehicle) (tipo : String) :
    Option (DocRow × String) :=
  match env.docsOf v.id tipo with
  | none => none
  | some doc =>
    match doc.fecha_vencimiento with
    | none => none
    | some fecha => if fecha = "" then none else some (doc, fecha)

/-- `days_left(parse_iso_date(s))` (`reminders.py` lines 151-152). -/
def daysOf (env : Env) (fecha : String) : Option Int :=
  match env.parse fecha with
  | none => none
  | some e => some (e - env.today)

/-- The unconditional snapshot write of the scan (`reminders.py` lines
182-199): `UPDATE` of `last_state`/`last_expiry`/`last_checked_at` when a
row exists, otherwise `INSERT` with `NULL` notified-markers. -/
def writeSnap (env : Env) (state fecha : String) (n : Option Snap) : Snap :=
  match n with
  | some n0 => { n0 with last_state := some state, last_expiry := some fecha,
                         last_checked_at := some env.now }
  | none => ⟨some state, some fecha, none, none, some env.now⟩

/-- Python string rendering of an optional value inside an f-string. -/
def pyStr (o : Option String) : String :=
  match o with
  | none => "None"
  | some s => s

/-- `v["proyecto"] or '-'` (falsy values replaced by a dash). -/
def orDash (o : Option String) : String :=
  match o with
  | none => "-"
  | some s => if s = "" then "-" else s

/-- The pending entry built when a notification fires (`reminders.py`
lines 166-180). -/
def mkPending (v : Vehicle) (tipo : String) (doc : DocRow) (fecha : String)
    (d : Option Int) (state : String) (last_state : Option String)
    (ws w5 : Bool) : PendingMsg :=
  let patente := (match v.patente with
    | none => "" | some s => s).toUpper
  let subj := "[Flota] " ++ patente ++ " – " ++ tipo ++ " – " ++ state ++
    " – vence " ++ fecha
  let body0 := "Vehículo: " ++ patente ++ "\n" ++
    "Proyecto: " ++ orDash v.proyecto ++ "\n" ++
    "Documento: " ++ tipo ++ "\n" ++
    "Vencimiento: " ++ fecha ++ "\n" ++
    "Estado: " ++ state ++ " (" ++ human_days_label d ++ ")" ++ "\n"
  let body1 := if w5 then
    body0 ++ "\n" ++ "Alerta: quedan 5 días para expirar y no se ha renovado." ++ "\n"
    else body0
  let body2 := if ws then
    body1 ++ "\n" ++ "Cambio de estado: " ++ pyStr last_state ++ " → " ++ state ++ "\n"
    else body1
  ⟨doc.id, subj, body2, state, fecha, ws, w5⟩

/-- One iteration of the scan loop of `reminders.py` `main` (lines
146-199): resolve the document, compute days/state, read the snapshot,
decide the two notifications, build the pending entry, and write the
unconditional snapshot fields. -/
def checkDoc (env : Env) (store : Store) (v : Vehicle) (tipo : String) :
    Store × Option PendingMsg :=
  match activeDoc env v tipo with
  | none => (store, none)
  | some (doc, fecha) =>
    let d := daysOf env fecha
    let state := state_from_days d
    let n := store doc.id
    let ws := want_state_notify (n.bind Snap.last_state) state
    let w5 := want_5_notify d (n.bind Snap.last_notified_5_expiry) fecha
    let pend := if ws || w5 then
        some (mkPending v tipo doc fecha d state (n.bind Snap.last_state) ws w5)
      else none
    (upd store doc.id (writeSnap env state fecha n), pend)

/-- The nested `for v in vehicles: for tipo in DOC_TYPES:` scan, as the
sequential processing of the flattened (vehicle, type) item list. -/
def scanItems (env : Env) (store : Store) :
    List (Vehicle × String) → Store × List PendingMsg
  | [] => (store, [])
  | it :: rest =>
    let r := checkDoc env store it.1 it.2
    let s := scanItems env r.1 rest
    (s.1, r.2.toList ++ s.2)

/-- The flattened iteration order of the scan. -/
def itemsOf (env : Env) : List (Vehicle × String) :=
  env.vehicles.flatMap (fun v => DOC_TYPES.map (fun tipo => (v, tipo)))

/-- The whole scan phase of `main` (lines 135-201), ending at the first
`conn.commit()`. -/
def scanRun (env : Env) (store : Store) : Store × List PendingMsg :=
  scanItems env store (itemsOf env)

/-- The pending entry a single item would contribute when reading a given
store. -/
def pendOf (env : Env) (store : Store) (it : Vehicle × String) :
    Option PendingMsg :=
  (checkDoc env store it.1 it.2).2

/-- The `documento_id` an item writes, if it is processed at all. -/
def docIdOf (env : Env) (it : Vehicle × String) : Option Nat :=
  (activeDoc env it.1 it.2).map (fun p => p.1.id)

/-- All written `documento_id`s of an item list, in order. -/
def activeIds (env : Env) (items : List (Vehicle × String)) : List Nat :=
  items.filterMap (docIdOf env)

/-- The SMTP loop of `send_messages` (`reminders.py` lines 110-117):
messages are sent in order; `sendOk i` tells whether the transport
accepts message `i`; a refusal raises, aborting the loop after `sent`
successful messages. -/
def sendLoop (sendOk : Nat → Bool) : Nat → List PendingMsg → Except Nat Nat
  | sent, [] => Except.ok sent
  | sent, _ :: rest =>
    if sendOk sent then sendLoop sendOk (sent + 1) rest else Except.error sent

/-- `send_messages` (`reminders.py` lines 101-118). -/
def send_messages (sendOk : Nat → Bool) (msgs : List PendingMsg) :
    Except Nat Nat :=
  sendLoop sendOk 0 msgs

/-- Whether the whole batch was delivered. -/
def sendAllOk (sendOk : Nat → Bool) (msgs : List PendingMsg) : Bool :=
  match send_messages sendOk msgs with
  | Except.ok _ => true
  | Except.error _ => false

/-- The two conditional `UPDATE`s of the mark-notified loop (`reminders.py`
lines 221-225) for one pending entry. -/
def markNotified (store : Store) (p : PendingMsg) : Store :=
  let s1 : Store := if p.want_state then
      (fun j => if j = p.doc_id then
        (store j).map (fun n => { n with last_notified_state := some p.state })
        else store j)
    else store
  if p.want_5 then
    (fun j => if j = p.doc_id then
      (s1 j).map (fun n => { n with last_notified_5_expiry := some p.expiry_s })
      else s1 j)
  else s1

/-- The whole mark-notified loop (`reminders.py` lines 220-226). -/
def markAll (store : Store) (pending : List PendingMsg) : Store :=
  pending.foldl markNotified store

/-- The effect of the mark-notified loop on one row. -/
def applyMark (n : Option Snap) (p : PendingMsg) : Option Snap :=
  let n1 := if p.want_state then
      n.map (fun s => { s with last_notified_state := some p.state }) else n
  if p.want_5 then
    n1.map (fun s => { s with last_notified_5_expiry := some p.expiry_s }) else n1

/-- Outcome of one invocation of `reminders.py` `main`: the persisted
store, the pending list, the number of messages handed to the transport,
whether the SMTP loop raised, and whether the process exits with code 0. -/
structure RunResult where
  store : Store
  pending : List PendingMsg
  sent : Nat
  sendFailed : Bool
  exitOk : Bool

/-- `main(dry_run)` of `reminders.py` (lines 121-230): scan and commit
snapshots; return early when nothing is pending or in dry-run mode;
otherwise send the batch and, only if every send succeeded, run the
mark-notified loop and commit.  A raise inside `send_messages` leaves the
already-committed scan snapshots in place, skips the mark-notified loop,
and makes the process exit non-zero. -/
def mainRun (env : Env) (sendOk : Nat → Bool) (dry_run : Bool)
    (store : Store) : RunResult :=
  let s := scanRun env store
  if s.2.isEmpty then ⟨s.1, s.2, 0, false, true⟩
  else if dry_run then ⟨s.1, s.2, 0, false, true⟩
  else
    match send_messages sendOk s.2 with
    | Except.ok sent => ⟨markAll s.1 s.2, s.2, sent, false, true⟩
    | Except.error sent => ⟨s.1, s.2, sent, true, false⟩

/-- The freshly computed state of a processed document. -/
def stateAt (env : Env) (fecha : String) : String :=
  state_from_days (daysOf env fecha)

/-- The escalation decision of one check, reading a given store. -/
def wsAt (env : Env) (store : Store) (doc : DocRow) (fecha : String) : Bool :=
  want_state_notify ((store doc.id).bind Snap.last_state) (stateAt env fecha)

/-- The five-day decision of one check, reading a given store. -/
def w5At (env : Env) (store : Store) (doc : DocRow) (fecha : String) : Bool :=
  want_5_notify (daysOf env fecha) ((store doc.id).bind Snap.last_notified_5_expiry) fecha

/-- Concrete date parser for witnesses: `"E5"` is 5 days and `"E20"` is
20 days after day 100. -/
def parseW : String → Option Int :=
  fun s => if s = "E5" then some 105 else if s = "E20" then some 120 else none

/-- Concrete documents for witnesses: vehicle 1 has a circulation permit
(doc 1) expiring in 5 days and an insurance (doc 2) expiring in 20 days. -/
def docsOfW : Nat → String → Option DocRow := fun vid tipo =>
  if vid = 1 then
    if tipo = "Permiso de Circulación" then some ⟨1, tipo, some "E5"⟩
    else if tipo = "SOAP (1 vez al año)" then some ⟨2, tipo, some "E20"⟩
    else none
  else none

/-- Concrete check environment for witnesses. -/
def envW : Env := ⟨[⟨1, some "AA11", some "P1"⟩], docsOfW, parseW, 100, "T1"⟩

/-- Concrete starting store for witnesses: doc 2 was last seen `Verde`
(so this check escalates it to `Amarillo`), doc 1 has no snapshot yet
(so its five-day warning fires on the first check). -/
def storeW : Store := fun j =>
  if j = 2 then some ⟨some "Verde", some "E20", none, none, some "T0"⟩ else none

/-- Concrete environment for the retry counterexample: a single document
(doc 1) expiring in 20 days. -/
def envE : Env :=
  ⟨[⟨1, some "BB22", none⟩],
   (fun vid tipo =>
     if vid = 1 ∧ tipo = "Permiso de Circulación" then
       some ⟨1, "Permiso de Circulación", some "E20"⟩
     else none),
   (fun s => if s = "E20" then some 120 else none), 100, "T1"⟩

/-- Starting store for the retry counterexample: doc 1 was last seen
`Verde`, so the check escalates it to `Amarillo`. -/
def storeE : Store := fun j =>
  if j = 1 then some ⟨some "Verde", some "E20", none, none, some "T0"⟩ else none

/-- Concrete environment for the mixed retry witness: a single document
(doc 1) expiring in 5 days. -/
def envM : Env :=
  ⟨[⟨1, some "CC33", none⟩],
   (fun vid tipo =>
     if vid = 1 ∧ tipo = "Permiso de Circulación" then
       some ⟨1, "Permiso de Circulación", some "E5"⟩
     else none),
   (fun s => if s = "E5" then some 105 else none), 100, "T1"⟩

/-- Starting store for the mixed retry witness: doc 1 was last seen
`Amarillo` and its five-day marker is unset, so with 5 days left the
check fires the escalation (`Amarillo → Rojo`) and the five-day warning
in the same pending entry. -/
def storeM : Store := fun j =>
  if j = 1 then some ⟨some "Amarillo", some "E5", none, none, some "T0"⟩ else none

/-- Concrete date parser for the urgency witness: `"D"` parses to day
140, i.e. 40 days after day 100. -/
def parseW2 : String → Option Int := fun s => if s = "D" then some 140 else none

/-- Concrete documents for the urgency witness: all five types present
with expiry string `"D"`. -/
def docs2W : String → Option DocRow := fun tipo => some ⟨0, tipo, some "D"⟩

end Flota

open Flota

/-- **C1.** The state classifier is total over integer-or-null day counts
(the Lean functions are total by construction) and returns exactly the
canonical thresholds, in both copies of the code: `null` and every
`d ≤ 15` map to `Rojo`, `16 ≤ d ≤ 30` to `Amarillo`, and `d > 30` to
`Verde`. -/
theorem classifier_thresholds_C1 :
    state_from_days none = "Rojo" ∧ (state_from_days_app none).1 = "Rojo" ∧
    ∀ d : Int,
      (d ≤ 15 → state_from_days (some d) = "Rojo" ∧
        (state_from_days_app (some d)).1 = "Rojo") ∧
      (16 ≤ d → d ≤ 30 → state_from_days (some d) = "Amarillo" ∧
        (state_from_days_app (some d)).1 = "Amarillo") ∧
      (30 < d → state_from_days (some d) = "Verde" ∧
        (state_from_days_app (some d)).1 = "Verde") := by
  refine ⟨rfl, rfl, fun d => ⟨fun h => ?_, fun h1 h2 => ?_, fun h => ?_⟩⟩
  · simp [state_from_days, state_from_days_app, h]
  · simp only [state_from_days, state_from_days_app]
    rw [if_neg (by omega), if_pos h2, if_neg (by omega), if_pos h2]
    exact ⟨rfl, rfl⟩
  · simp only [state_from_days, state_from_days_app]
    rw [if_neg (by omega), if_neg (by omega), if_neg (by omega), if_neg (by omega)]
    exact ⟨rfl, rfl⟩

/-- Witness for C1 at concrete day counts 15, 16 and 31. -/
theorem classifier_thresholds_C1_witness :
    state_from_days (some 15) = "Rojo" ∧
    state_from_days (some 16) = "Amarillo" ∧
    state_from_days (some 31) = "Verde" :=
  ⟨((classifier_thresholds_C1.2.2 15).1 (by decide)).1,
   ((classifier_thresholds_C1.2.2 16).2.1 (by decide) (by decide)).1,
   ((classifier_thresholds_C1.2.2 31).2.2 (by decide)).1⟩

/-- **C2.** The escalation transition decision fires iff the persisted
previous state is present, differs from the fresh state, and the ordered
pair is exactly `(Verde, Amarillo)` or `(Amarillo, Rojo)`; in particular
it never fires for de-escalations, unchanged states, or an absent
previous snapshot. -/
theorem escalation_decision_C2 :
    ∀ (prev : Option String) (curr : String),
      want_state_notify prev curr = true ↔
        (prev = some "Verde" ∧ curr = "Amarillo") ∨
        (prev = some "Amarillo" ∧ curr = "Rojo") := by
  intro prev curr
  cases prev with
  | none => simp [want_state_notify]
  | some ls =>
    simp only [want_state_notify]
    split_ifs with h
    · simp only [Bool.or_eq_true, decide_eq_true_eq, Option.some.injEq]
    · simp only [Bool.false_eq_true, false_iff, Option.some.injEq]
      rintro (⟨h1, h2⟩ | ⟨h1, h2⟩) <;> subst h1 <;> subst h2 <;>
        exact h ⟨by decide, by decide⟩

/-- **C3.** The five-day warning decision fires iff the day count is
exactly `5` and the stored `last_notified_5_expiry` differs from the
current expiry string (an absent marker never equals any string); it can
fire on the very first check (absent marker), and once the marker holds
the current expiry it does not re-fire. -/
theorem five_day_decision_C3 :
    ∀ (d : Option Int) (marker : Option String) (fecha : String),
      (want_5_notify d marker fecha = true ↔ d = some 5 ∧ marker ≠ some fecha) ∧
      want_5_notify (some 5) none fecha = true ∧
      want_5_notify d (some fecha) fecha = false := by
  intro d marker fecha
  refine ⟨?_, ?_, ?_⟩
  · simp [want_5_notify]
  · simp [want_5_notify]
  · simp [want_5_notify]

/-- **C10.** The duplicated core logic of the two files is extensionally
equal: the classifier of `reminders.py` equals the state component of the
classifier of `app.py`, and the two copies of the notification decisions
agree on every input. -/
theorem duplicated_logic_C10 :
    (∀ d : Option Int, state_from_days d = (state_from_days_app d).1) ∧
    (∀ (ls : Option String) (st : String),
       want_state_notify ls st = want_state_notify_app ls st) ∧
    (∀ (d : Option Int) (m : Option String) (f : String),
       want_5_notify d m f = want_5_notify_app d m f) := by
  refine ⟨fun d => ?_, fun ls st => rfl, fun d m f => rfl⟩
  cases d with
  | none => rfl
  | some d =>
    simp only [state_from_days, state_from_days_app]
    split_ifs <;> rfl

/-- Characterisation of the urgency fold: either no type beat the
accumulator, or the result is the first type attaining the overall
minimum rank score. -/
lemma urg_foldl_char (parse : String → Option Int) (today : Int)
    (docs : String → Option DocRow) :
    ∀ (tipos : List String) (best : Int × String × Option Int),
      (tipos.foldl (urgStep parse today docs) best = best ∧
        ∀ t ∈ tipos, best.1 ≤ d_cmpOf parse today docs t) ∨
      (∃ l1 t l2, tipos = l1 ++ t :: l2 ∧
        tipos.foldl (urgStep parse today docs) best =
          (d_cmpOf parse today docs t, t,
           (get_doc_status parse today (docs t)).expiry) ∧
        d_cmpOf parse today docs t < best.1 ∧
        (∀ u ∈ l1, d_cmpOf parse today docs t < d_cmpOf parse today docs u) ∧
        (∀ u ∈ l2, d_cmpOf parse today docs t ≤ d_cmpOf parse today docs u)) := by
  intro tipos
  induction tipos with
  | nil => exact fun best => Or.inl ⟨rfl, by simp⟩
  | cons t0 rest ih =>
    intro best
    rw [List.foldl_cons]
    by_cases hlt : d_cmpOf parse today docs t0 < best.1
    · have hstep : urgStep parse today docs best t0 =
          (d_cmpOf parse today docs t0, t0,
           (get_doc_status parse today (docs t0)).expiry) := by
        simp [urgStep, hlt]
      rw [hstep]
      rcases ih (d_cmpOf parse today docs t0, t0,
          (get_doc_status parse today (docs t0)).expiry) with ⟨heq, hall⟩ |
          ⟨l1, t, l2, hre, heq, hlt', hl1, hl2⟩
      · refine Or.inr ⟨[], t0, rest, rfl, heq, hlt, by simp, ?_⟩
        exact fun u hu => hall u hu
      · refine Or.inr ⟨t0 :: l1, t, l2, by rw [hre]; rfl, heq,
          lt_trans hlt' hlt, ?_, hl2⟩
        intro u hu
        rcases List.mem_cons.mp hu with rfl | hu
        · exact hlt'
        · exact hl1 u hu
    · have hstep : urgStep parse today docs best t0 = best := by
        simp [urgStep, hlt]
      rw [hstep]
      rcases ih best with ⟨heq, hall⟩ | ⟨l1, t, l2, hre, heq, hlt', hl1, hl2⟩
      · refine Or.inl ⟨heq, ?_⟩
        intro u hu
        rcases List.mem_cons.mp hu with rfl | hu
        · exact le_of_not_lt hlt
        · exact hall u hu
      · refine Or.inr ⟨t0 :: l1, t, l2, by rw [hre]; rfl, heq, hlt', ?_, hl2⟩
        intro u hu
        rcases List.mem_cons.mp hu with rfl | hu
        · exact lt_of_lt_of_le hlt' (le_of_not_lt hlt)
        · exact hl1 u hu

/-- **C9.** Resolving a document's status never raises (the embedding is
a total function), and for an absent document, an absent/empty expiry
value, or an unparseable expiry string it returns the sentinel
`{expiry: none, days: none, state: "Rojo", label: "No registrado"}`. -/
theorem resolver_sentinel_C9 (parse : String → Option Int) (today : Int)
    (doc : Option DocRow)
    (h : doc = none ∨
         (∃ dr, doc = some dr ∧
            (dr.fecha_vencimiento = none ∨ dr.fecha_vencimiento = some "")) ∨
         (∃ dr f, doc = some dr ∧ dr.fecha_vencimiento = some f ∧
            parse f = none)) :
    get_doc_status parse today doc =
      ⟨none, none, "Rojo", "badge-red", "No registrado"⟩ := by
  rcases h with h | ⟨dr, rfl, h | h⟩ | ⟨dr, f, rfl, hf, hp⟩
  · subst h; rfl
  · simp [get_doc_status, h]
  · simp [get_doc_status, h]
  · by_cases hf0 : f = ""
    · simp [get_doc_status, hf, hf0]
    · simp [get_doc_status, hf, hf0, hp, state_from_days_app, human_days_label]

/-- Witness for C9: an absent document resolves to the sentinel. -/
theorem resolver_sentinel_C9_witness :
    get_doc_status (fun _ => none) 0 none =
      ⟨none, none, "Rojo", "badge-red", "No registrado"⟩ :=
  resolver_sentinel_C9 (fun _ => none) 0 none (Or.inl rfl)

/-- **C8 counterexample.** The `-9999` sentinel for a missing document is
not strictly more urgent than every real day count: a vehicle whose five
documents all carry the real day count `-20000` (expiry string `"OLD"`,
parsed 20000 days in the past) ranks strictly more urgent than a vehicle
with zero documents, contradicting the claim that a vehicle with zero
documents always outranks any vehicle whose documents all have real day
counts. -/
theorem urgency_sentinel_ce_C8 :
    (get_doc_status parseCE 0 (docsCE "Permiso de Circulación")).days =
      some (-20000) ∧
    (get_vehicle_urgency parseCE 0 docsCE).1 <
      (get_vehicle_urgency parseCE 0 (fun _ => none)).1 := by
  constructor
  · rfl
  · decide

lemma checkDoc_inactive (env : Env) (store : Store) (v : Vehicle) (tipo : String)
    (h : activeDoc env v tipo = none) :
    checkDoc env store v tipo = (store, none) := by
  simp [checkDoc, h]

lemma checkDoc_active (env : Env) (store : Store) (v : Vehicle) (tipo : String)
    (doc : DocRow) (fecha : String)
    (h : activeDoc env v tipo = some (doc, fecha)) :
    checkDoc env store v tipo =
      (upd store doc.id (writeSnap env (stateAt env fecha) fecha (store doc.id)),
       if (wsAt env store doc fecha || w5At env store doc fecha) = true then
         some (mkPending v tipo doc fecha (daysOf env fecha) (stateAt env fecha)
           ((store doc.id).bind Snap.last_state)
           (wsAt env store doc fecha) (w5At env store doc fecha))
       else none) := by
  simp [checkDoc, h, stateAt, wsAt, w5At]

lemma checkDoc_fst_untouched (env : Env) (store : Store) (it : Vehicle × String)
    (j : Nat) (h : docIdOf env it ≠ some j) :
    (checkDoc env store it.1 it.2).1 j = store j := by
  cases hact : activeDoc env it.1 it.2 with
  | none => rw [checkDoc_inactive env store it.1 it.2 hact]
  | some pr =>
    obtain ⟨doc, fecha⟩ := pr
    rw [checkDoc_active env store it.1 it.2 doc fecha hact]
    have hne : j ≠ doc.id := by
      intro hj
      exact h (by simp [docIdOf, hact, hj])
    simp [upd, hne]

lemma writeSnap_fields (env : Env) (state fecha : String) (n : Option Snap) :
    (writeSnap env state fecha n).last_state = some state ∧
    (writeSnap env state fecha n).last_expiry = some fecha ∧
    (writeSnap env state fecha n).last_checked_at = some env.now := by
  cases n <;> simp [writeSnap]

lemma writeSnap_markers (env : Env) (state fecha : String) (n : Option Snap) :
    (writeSnap env state fecha n).last_notified_state =
      n.bind Snap.last_notified_state ∧
    (writeSnap env state fecha n).last_notified_5_expiry =
      n.bind Snap.last_notified_5_expiry := by
  cases n <;> simp [writeSnap]

lemma pendOf_inactive (env : Env) (store : Store) (it : Vehicle × String)
    (h : activeDoc env it.1 it.2 = none) :
    pendOf env store it = none := by
  simp [pendOf, checkDoc_inactive env store it.1 it.2 h]

lemma pendOf_active (env : Env) (store : Store) (it : Vehicle × String)
    (doc : DocRow) (fecha : String)
    (h : activeDoc env it.1 it.2 = some (doc, fecha)) :
    pendOf env store it =
      (if (wsAt env store doc fecha || w5At env store doc fecha) = true then
         some (mkPending it.1 it.2 doc fecha (daysOf env fecha) (stateAt env fecha)
           ((store doc.id).bind Snap.last_state)
           (wsAt env store doc fecha) (w5At env store doc fecha))
       else none) := by
  simp [pendOf, checkDoc_active env store it.1 it.2 doc fecha h]

lemma pendOf_docId (env : Env) (store : Store) (it : Vehicle × String)
    (p : PendingMsg) (h : pendOf env store it = some p) :
    docIdOf env it = some p.doc_id := by
  cases hact : activeDoc env it.1 it.2 with
  | none => rw [pendOf_inactive env store it hact] at h; exact absurd h (by simp)
  | some pr =>
    obtain ⟨doc, fecha⟩ := pr
    rw [pendOf_active env store it doc fecha hact] at h
    split at h
    · cases h
      simp [docIdOf, hact, mkPending]
    · exact absurd h (by simp)

lemma pendOf_flags (env : Env) (store : Store) (it : Vehicle × String)
    (doc : DocRow) (fecha : String)
    (hact : activeDoc env it.1 it.2 = some (doc, fecha))
    (h : pendOf env store it = none) :
    wsAt env store doc fecha = false ∧ w5At env store doc fecha = false := by
  rw [pendOf_active env store it doc fecha hact] at h
  split at h
  · exact absurd h (by simp)
  · rename_i hcond
    constructor
    · cases hws : wsAt env store doc fecha
      · rfl
      · exact absurd (by simp [hws]) hcond
    · cases hw5 : w5At env store doc fecha
      · rfl
      · exact absurd (by simp [hw5]) hcond

lemma pendOf_fields (env : Env) (store : Store) (it : Vehicle × String)
    (doc : DocRow) (fecha : String) (p : PendingMsg)
    (hact : activeDoc env it.1 it.2 = some (doc, fecha))
    (h : pendOf env store it = some p) :
    p.doc_id = doc.id ∧ p.state = stateAt env fecha ∧ p.expiry_s = fecha ∧
    p.want_state = wsAt env store doc fecha ∧
    p.want_5 = w5At env store doc fecha := by
  rw [pendOf_active env store it doc fecha hact] at h
  split at h
  · cases h
    simp [mkPending]
  · exact absurd h (by simp)

lemma pendOf_congr (env : Env) (store store' : Store) (it : Vehicle × String)
    (h : ∀ i, docIdOf env it = some i → store i = store' i) :
    pendOf env store it = pendOf env store' it := by
  cases hact : activeDoc env it.1 it.2 with
  | none => rw [pendOf_inactive env store it hact, pendOf_inactive env store' it hact]
  | some pr =>
    obtain ⟨doc, fecha⟩ := pr
    have hstore : store doc.id = store' doc.id :=
      h doc.id (by simp [docIdOf, hact])
    rw [pendOf_active env store it doc fecha hact,
        pendOf_active env store' it doc fecha hact]
    rw [show wsAt env store doc fecha = wsAt env store' doc fecha by
          simp [wsAt, hstore],
        show w5At env store doc fecha = w5At env store' doc fecha by
          simp [w5At, hstore],
        hstore]

lemma nodup_filterMap_inj {α β : Type _} (f : α → Option β) :
    ∀ (l : List α), (l.filterMap f).Nodup →
      ∀ a ∈ l, ∀ b ∈ l, ∀ j, f a = some j → f b = some j → a = b := by
  intro l
  induction l with
  | nil => intro _ a ha; exact absurd ha (by simp)
  | cons x rest ih =>
    intro hnd a ha b hb j hfa hfb
    cases hfx : f x with
    | none =>
      have hnd' : (rest.filterMap f).Nodup := by
        rwa [List.filterMap_cons, hfx] at hnd
      have ha' : a ∈ rest := by
        rcases List.mem_cons.mp ha with rfl | h
        · rw [hfx] at hfa; cases hfa
        · exact h
      have hb' : b ∈ rest := by
        rcases List.mem_cons.mp hb with rfl | h
        · rw [hfx] at hfb; cases hfb
        · exact h
      exact ih hnd' a ha' b hb' j hfa hfb
    | some i =>
      rw [List.filterMap_cons, hfx] at hnd
      have hi : i ∉ rest.filterMap f := (List.nodup_cons.mp hnd).1
      have hnd' : (rest.filterMap f).Nodup := (List.nodup_cons.mp hnd).2
      rcases List.mem_cons.mp ha with rfl | ha' <;>
        rcases List.mem_cons.mp hb with rfl | hb'
      · rfl
      · exfalso
        rw [hfx] at hfa
        cases hfa
        exact hi (List.mem_filterMap.mpr ⟨b, hb', hfb⟩)
      · exfalso
        rw [hfx] at hfb
        cases hfb
        exact hi (List.mem_filterMap.mpr ⟨a, ha', hfa⟩)
      · exact ih hnd' a ha' b hb' j hfa hfb

/-- A scan leaves rows untouched whose `documento_id` no item writes. -/
lemma scanItems_fst_untouched (env : Env) :
    ∀ (items : List (Vehicle × String)) (store : Store) (j : Nat),
      (∀ it ∈ items, docIdOf env it ≠ some j) →
      (scanItems env store items).1 j = store j := by
  intro items
  induction items with
  | nil => intro store j _; rfl
  | cons hd rest ih =>
    intro store j h
    simp only [scanItems]
    rw [ih _ j (fun it hit => h it (List.mem_cons_of_mem hd hit))]
    exact checkDoc_fst_untouched env store hd j (h hd (List.mem_cons_self hd rest))

/-- A scan never changes the notified-markers of any row: the
unconditional snapshot write preserves them on update and inserts `NULL`
on creation. -/
lemma scanItems_markers (env : Env) :
    ∀ (items : List (Vehicle × String)) (store : Store) (j : Nat),
      ((scanItems env store items).1 j).bind Snap.last_notified_state =
        (store j).bind Snap.last_notified_state ∧
      ((scanItems env store items).1 j).bind Snap.last_notified_5_expiry =
        (store j).bind Snap.last_notified_5_expiry := by
  intro items
  induction items with
  | nil => intro store j; exact ⟨rfl, rfl⟩
  | cons hd rest ih =>
    intro store j
    simp only [scanItems]
    have hstep :
        (((checkDoc env store hd.1 hd.2).1 j).bind Snap.last_notified_state =
          (store j).bind Snap.last_notified_state) ∧
        (((checkDoc env store hd.1 hd.2).1 j).bind Snap.last_notified_5_expiry =
          (store j).bind Snap.last_notified_5_expiry) := by
      cases hact : activeDoc env hd.1 hd.2 with
      | none => rw [checkDoc_inactive env store hd.1 hd.2 hact]; exact ⟨rfl, rfl⟩
      | some pr =>
        obtain ⟨doc, fecha⟩ := pr
        rw [checkDoc_active env store hd.1 hd.2 doc fecha hact]
        by_cases hj : j = doc.id
        · subst hj
          simp only [upd, if_pos rfl, Option.bind_some]
          exact ⟨(writeSnap_markers env _ fecha (store doc.id)).1,
                 (writeSnap_markers env _ fecha (store doc.id)).2⟩
        · simp [upd, hj]
    exact ⟨(ih _ j).1.trans hstep.1, (ih _ j).2.trans hstep.2⟩

/-- With pairwise-distinct written ids, the row of an active item after a
scan is exactly the unconditional snapshot write applied to the row the
original store held. -/
lemma scanItems_fst_owner (env : Env) :
    ∀ (items : List (Vehicle × String)) (store : Store) (it : Vehicle × String)
      (doc : DocRow) (fecha : String),
      it ∈ items → activeDoc env it.1 it.2 = some (doc, fecha) →
      (activeIds env items).Nodup →
      (scanItems env store items).1 doc.id =
        some (writeSnap env (stateAt env fecha) fecha (store doc.id)) := by
  intro items
  induction items with
  | nil => intro _ it _ _ h; exact absurd h (by simp)
  | cons hd rest ih =>
    intro store it doc fecha hmem hact hnd
    rcases List.mem_cons.mp hmem with rfl | hmem'
    · have hid : docIdOf env it = some doc.id := by simp [docIdOf, hact]
      have hcons : activeIds env (it :: rest) = doc.id :: activeIds env rest := by
        simp [activeIds, List.filterMap_cons, hid]
      rw [hcons] at hnd
      have hnotin : doc.id ∉ activeIds env rest := (List.nodup_cons.mp hnd).1
      have hrest : ∀ it' ∈ rest, docIdOf env it' ≠ some doc.id := by
        intro it' h' heq
        exact hnotin (List.mem_filterMap.mpr ⟨it', h', heq⟩)
      simp only [scanItems]
      rw [scanItems_fst_untouched env rest _ doc.id hrest]
      rw [checkDoc_active env store it.1 it.2 doc fecha hact]
      simp [upd]
    · cases hacthd : activeDoc env hd.1 hd.2 with
      | none =>
        have hndrest : (activeIds env rest).Nodup := by
          have : activeIds env (hd :: rest) = activeIds env rest := by
            simp [activeIds, List.filterMap_cons, docIdOf, hacthd]
          rwa [this] at hnd
        simp only [scanItems]
        rw [checkDoc_inactive env store hd.1 hd.2 hacthd]
        exact ih store it doc fecha hmem' hact hndrest
      | some pr0 =>
        obtain ⟨doc0, fecha0⟩ := pr0
        have hid0 : docIdOf env hd = some doc0.id := by simp [docIdOf, hacthd]
        have hcons : activeIds env (hd :: rest) = doc0.id :: activeIds env rest := by
          simp [activeIds, List.filterMap_cons, hid0]
        rw [hcons] at hnd
        have hnotin : doc0.id ∉ activeIds env rest := (List.nodup_cons.mp hnd).1
        have hndrest : (activeIds env rest).Nodup := (List.nodup_cons.mp hnd).2
        have hidmem : doc.id ∈ activeIds env rest :=
          List.mem_filterMap.mpr ⟨it, hmem', by simp [docIdOf, hact]⟩
        have hne : doc0.id ≠ doc.id := fun h => hnotin (h ▸ hidmem)
        simp only [scanItems]
        rw [ih _ it doc fecha hmem' hact hndrest]
        rw [checkDoc_fst_untouched env store hd doc.id
          (by rw [hid0]; exact fun h => hne (by injection h))]

/-- With pairwise-distinct written ids, the pending list of a scan is
exactly the per-item decisions read against the original store. -/
lemma scanItems_snd_char (env : Env) :
    ∀ (items : List (Vehicle × String)) (store : Store),
      (activeIds env items).Nodup →
      (scanItems env store items).2 = items.filterMap (pendOf env store) := by
  intro items
  induction items with
  | nil => intro store _; rfl
  | cons hd rest ih =>
    intro store hnd
    simp only [scanItems]
    cases hacthd : activeDoc env hd.1 hd.2 with
    | none =>
      have hndrest : (activeIds env rest).Nodup := by
        have : activeIds env (hd :: rest) = activeIds env rest := by
          simp [activeIds, List.filterMap_cons, docIdOf, hacthd]
        rwa [this] at hnd
      have hp : pendOf env store hd = none := pendOf_inactive env store hd hacthd
      rw [List.filterMap_cons]
      rw [show (checkDoc env store hd.1 hd.2) = (store, none) from
        checkDoc_inactive env store hd.1 hd.2 hacthd]
      simp only [hp]
      exact ih store hndrest
    | some pr0 =>
      obtain ⟨doc0, fecha0⟩ := pr0
      have hid0 : docIdOf env hd = some doc0.id := by simp [docIdOf, hacthd]
      have hcons : activeIds env (hd :: rest) = doc0.id :: activeIds env rest := by
        simp [activeIds, List.filterMap_cons, hid0]
      rw [hcons] at hnd
      have hnotin : doc0.id ∉ activeIds env rest := (List.nodup_cons.mp hnd).1
      have hndrest : (activeIds env rest).Nodup := (List.nodup_cons.mp hnd).2
      have hcongr : ∀ it' ∈ rest,
          pendOf env (checkDoc env store hd.1 hd.2).1 it' = pendOf env store it' := by
        intro it' h'
        apply pendOf_congr
        intro i hi
        apply checkDoc_fst_untouched
        rw [hid0]
        intro heq
        injection heq with heq
        exact hnotin (heq ▸ List.mem_filterMap.mpr ⟨it', h', hi⟩)
      rw [ih _ hndrest, List.filterMap_congr hcongr, List.filterMap_cons]
      show (pendOf env store hd).toList ++ _ = _
      cases hp : pendOf env store hd <;> simp [hp]

/-- The `documento_id`s of the pending entries form a sublist of the
written ids of the scan. -/
lemma pendIds_sublist (env : Env) (store : Store) :
    ∀ (items : List (Vehicle × String)),
      ((items.filterMap (pendOf env store)).map PendingMsg.doc_id).Sublist
        (activeIds env items) := by
  intro items
  induction items with
  | nil => simp
  | cons hd rest ih =>
    cases hp : pendOf env store hd with
    | none =>
      rw [List.filterMap_cons]
      simp only [hp, activeIds, List.filterMap_cons]
      cases hid : docIdOf env hd
      · exact ih
      · exact List.Sublist.cons _ ih
    | some p =>
      have hid : docIdOf env hd = some p.doc_id := pendOf_docId env store hd p hp
      rw [List.filterMap_cons]
      simp only [hp, activeIds, List.filterMap_cons, hid, List.map_cons]
      exact List.Sublist.cons₂ _ ih

lemma markNotified_untouched (store : Store) (p : PendingMsg) (j : Nat)
    (h : p.doc_id ≠ j) : markNotified store p j = store j := by
  have hj : j ≠ p.doc_id := fun hh => h hh.symm
  simp only [markNotified]
  split_ifs <;> simp [hj]

lemma markNotified_owner (store : Store) (p : PendingMsg) :
    markNotified store p p.doc_id = applyMark (store p.doc_id) p := by
  simp only [markNotified, applyMark]
  split_ifs <;> simp

lemma markAll_untouched :
    ∀ (pending : List PendingMsg) (store : Store) (j : Nat),
      (∀ p ∈ pending, p.doc_id ≠ j) → markAll store pending j = store j := by
  intro pending
  induction pending with
  | nil => intro store j _; rfl
  | cons q rest ih =>
    intro store j h
    show markAll (markNotified store q) rest j = store j
    rw [ih _ j (fun p hp => h p (List.mem_cons_of_mem q hp))]
    exact markNotified_untouched store q j (h q (List.mem_cons_self q rest))

lemma markAll_owner :
    ∀ (pending : List PendingMsg) (store : Store) (p : PendingMsg),
      (pending.map PendingMsg.doc_id).Nodup → p ∈ pending →
      markAll store pending p.doc_id = applyMark (store p.doc_id) p := by
  intro pending
  induction pending with
  | nil => intro _ p _ h; exact absurd h (by simp)
  | cons q rest ih =>
    intro store p hnd hmem
    rw [List.map_cons] at hnd
    have hqnotin : q.doc_id ∉ rest.map PendingMsg.doc_id := (List.nodup_cons.mp hnd).1
    have hndrest : (rest.map PendingMsg.doc_id).Nodup := (List.nodup_cons.mp hnd).2
    rcases List.mem_cons.mp hmem with rfl | hmem'
    · show markAll (markNotified store p) rest p.doc_id = _
      rw [markAll_untouched rest _ p.doc_id
        (fun p' hp' h => hqnotin (h ▸ List.mem_map_of_mem PendingMsg.doc_id hp'))]
      exact markNotified_owner store p
    · have hne : q.doc_id ≠ p.doc_id :=
        fun h => hqnotin (h ▸ List.mem_map_of_mem PendingMsg.doc_id hmem')
      show markAll (markNotified store q) rest p.doc_id = _
      rw [ih _ p hndrest hmem', markNotified_untouched store q p.doc_id hne]

lemma sendLoop_all_ok (sendOk : Nat → Bool) (hok : ∀ i, sendOk i = true) :
    ∀ (msgs : List PendingMsg) (k : Nat),
      sendLoop sendOk k msgs = Except.ok (k + msgs.length) := by
  intro msgs
  induction msgs with
  | nil => intro k; simp [sendLoop]
  | cons m rest ih =>
    intro k
    simp only [sendLoop, hok k, if_true]
    rw [ih (k + 1)]
    congr 1
    simp only [List.length_cons]
    omega

lemma sendAllOk_of_all (sendOk : Nat → Bool) (hok : ∀ i, sendOk i = true)
    (msgs : List PendingMsg) : sendAllOk sendOk msgs = true := by
  simp [sendAllOk, send_messages, sendLoop_all_ok sendOk hok msgs 0]

lemma mainRun_pending_eq (env : Env) (sendOk : Nat → Bool) (dry : Bool)
    (store : Store) :
    (mainRun env sendOk dry store).pending = (scanRun env store).2 := by
  simp only [mainRun]
  split
  · rfl
  · split
    · rfl
    · split <;> rfl

lemma mainRun_store_of_sendFailed (env : Env) (sendOk : Nat → Bool) (dry : Bool)
    (store : Store) (h : (mainRun env sendOk dry store).sendFailed = true) :
    (mainRun env sendOk dry store).store = (scanRun env store).1 ∧
    (mainRun env sendOk dry store).exitOk = false := by
  by_cases hemp : (scanRun env store).2.isEmpty
  · exact absurd h (by simp [mainRun, hemp])
  · cases hdry : dry with
    | true => exact absurd h (by simp [mainRun, hemp, hdry])
    | false =>
      cases hsend : send_messages sendOk (scanRun env store).2 with
      | ok s => exact absurd h (by simp [mainRun, hemp, hdry, hsend])
      | error s => simp [mainRun, hemp, hdry, hsend]

lemma mainRun_store_of_pending_nil (env : Env) (sendOk : Nat → Bool) (dry : Bool)
    (store : Store) (h : (scanRun env store).2 = []) :
    (mainRun env sendOk dry store).store = (scanRun env store).1 := by
  simp only [mainRun, h]
  rfl

lemma applyMark_some_fields (w : Snap) (p : PendingMsg) :
    ∃ w', applyMark (some w) p = some w' ∧
      w'.last_state = w.last_state ∧
      w'.last_expiry = w.last_expiry ∧
      w'.last_checked_at = w.last_checked_at ∧
      w'.last_notified_state =
        (if p.want_state = true then some p.state else w.last_notified_state) ∧
      w'.last_notified_5_expiry =
        (if p.want_5 = true then some p.expiry_s else w.last_notified_5_expiry) := by
  simp only [applyMark]
  split_ifs with h1 h2 h2 <;> exact ⟨_, rfl, by simp⟩

/-- Full characterisation of the persisted row of an active document
after one invocation of `main`: the unconditional snapshot fields always
hold the fresh values, and each notified-marker is advanced exactly when
the run was not a dry run, the whole batch was delivered, and the
corresponding decision fired; otherwise the marker keeps its value from
before the run. -/
lemma mainRun_store_active (env : Env) (sendOk : Nat → Bool) (dry : Bool)
    (store : Store) (v : Vehicle) (tipo : String) (doc : DocRow) (fecha : String)
    (hnd : (activeIds env (itemsOf env)).Nodup)
    (hit : (v, tipo) ∈ itemsOf env)
    (hact : activeDoc env v tipo = some (doc, fecha)) :
    ∃ n', (mainRun env sendOk dry store).store doc.id = some n' ∧
      n'.last_state = some (stateAt env fecha) ∧
      n'.last_expiry = some fecha ∧
      n'.last_checked_at = some env.now ∧
      n'.last_notified_state =
        (if dry = false ∧ sendAllOk sendOk (scanRun env store).2 = true ∧
            wsAt env store doc fecha = true
         then some (stateAt env fecha)
         else (store doc.id).bind Snap.last_notified_state) ∧
      n'.last_notified_5_expiry =
        (if dry = false ∧ sendAllOk sendOk (scanRun env store).2 = true ∧
            w5At env store doc fecha = true
         then some fecha
         else (store doc.id).bind Snap.last_notified_5_expiry) := by
  have howner : (scanRun env store).1 doc.id =
      some (writeSnap env (stateAt env fecha) fecha (store doc.id)) :=
    scanItems_fst_owner env (itemsOf env) store (v, tipo) doc fecha hit hact hnd
  have hpend : (scanRun env store).2 = (itemsOf env).filterMap (pendOf env store) :=
    scanItems_snd_char env (itemsOf env) store hnd
  obtain ⟨hws1, hws2, hws3⟩ :=
    writeSnap_fields env (stateAt env fecha) fecha (store doc.id)
  obtain ⟨hwm1, hwm2⟩ :=
    writeSnap_markers env (stateAt env fecha) fecha (store doc.id)
  by_cases hemp : (scanRun env store).2.isEmpty = true
  · have hnil : (scanRun env store).2 = [] := List.isEmpty_iff.mp hemp
    have hpnone : pendOf env store (v, tipo) = none := by
      rw [hpend] at hnil
      exact List.filterMap_eq_nil_iff.mp hnil _ hit
    obtain ⟨hwsf, hw5f⟩ := pendOf_flags env store (v, tipo) doc fecha hact hpnone
    have hstore : (mainRun env sendOk dry store).store = (scanRun env store).1 :=
      mainRun_store_of_pending_nil env sendOk dry store hnil
    refine ⟨writeSnap env (stateAt env fecha) fecha (store doc.id),
      by rw [hstore, howner], hws1, hws2, hws3, ?_, ?_⟩
    · rw [hwm1, if_neg]; rintro ⟨-, -, hc⟩; rw [hwsf] at hc; cases hc
    · rw [hwm2, if_neg]; rintro ⟨-, -, hc⟩; rw [hw5f] at hc; cases hc
  · by_cases hdry : dry = true
    · have hstore : (mainRun env sendOk dry store).store = (scanRun env store).1 := by
        simp [mainRun, hemp, hdry]
      refine ⟨writeSnap env (stateAt env fecha) fecha (store doc.id),
        by rw [hstore, howner], hws1, hws2, hws3, ?_, ?_⟩
      · rw [hwm1, if_neg]; rintro ⟨hc, -, -⟩; rw [hdry] at hc; cases hc
      · rw [hwm2, if_neg]; rintro ⟨hc, -, -⟩; rw [hdry] at hc; cases hc
    · have hdryf : dry = false := by
        cases dry with
        | true => exact absurd rfl hdry
        | false => rfl
      cases hsend : send_messages sendOk (scanRun env store).2 with
      | error s =>
        have hstore : (mainRun env sendOk dry store).store = (scanRun env store).1 := by
          simp [mainRun, hemp, hdryf, hsend]
        have hnok : sendAllOk sendOk (scanRun env store).2 = false := by
          simp [sendAllOk, hsend]
        refine ⟨writeSnap env (stateAt env fecha) fecha (store doc.id),
          by rw [hstore, howner], hws1, hws2, hws3, ?_, ?_⟩
        · rw [hwm1, if_neg]; rintro ⟨-, hc, -⟩; rw [hnok] at hc; cases hc
        · rw [hwm2, if_neg]; rintro ⟨-, hc, -⟩; rw [hnok] at hc; cases hc
      | ok s =>
        have hok : sendAllOk sendOk (scanRun env store).2 = true := by
          simp [sendAllOk, hsend]
        have hstore : (mainRun env sendOk dry store).store =
            markAll (scanRun env store).1 (scanRun env store).2 := by
          simp [mainRun, hemp, hdryf, hsend]
        cases hp : pendOf env store (v, tipo) with
        | none =>
          obtain ⟨hwsf, hw5f⟩ := pendOf_flags env store (v, tipo) doc fecha hact hp
          have hnotin : ∀ p' ∈ (scanRun env store).2, p'.doc_id ≠ doc.id := by
            intro p' hp' heq
            rw [hpend] at hp'
            obtain ⟨it', hit', hpit'⟩ := List.mem_filterMap.mp hp'
            have hid' : docIdOf env it' = some p'.doc_id :=
              pendOf_docId env store it' p' hpit'
            have hid : docIdOf env (v, tipo) = some doc.id := by
              simp [docIdOf, hact]
            have heqit : it' = (v, tipo) :=
              nodup_filterMap_inj (docIdOf env) (itemsOf env) hnd it' hit'
                (v, tipo) hit doc.id (heq ▸ hid') hid
            rw [heqit, hp] at hpit'
            cases hpit'
          have huntouched :
              markAll (scanRun env store).1 (scanRun env store).2 doc.id =
                (scanRun env store).1 doc.id :=
            markAll_untouched (scanRun env store).2 _ doc.id hnotin
          refine ⟨writeSnap env (stateAt env fecha) fecha (store doc.id),
            by rw [hstore, huntouched, howner], hws1, hws2, hws3, ?_, ?_⟩
          · rw [hwm1, if_neg]; rintro ⟨-, -, hc⟩; rw [hwsf] at hc; cases hc
          · rw [hwm2, if_neg]; rintro ⟨-, -, hc⟩; rw [hw5f] at hc; cases hc
        | some p =>
          obtain ⟨hpid, hpstate, hpexp, hpws, hpw5⟩ :=
            pendOf_fields env store (v, tipo) doc fecha p hact hp
          have hmem : p ∈ (scanRun env store).2 := by
            rw [hpend]
            exact List.mem_filterMap.mpr ⟨(v, tipo), hit, hp⟩
          have hndp : ((scanRun env store).2.map PendingMsg.doc_id).Nodup := by
            rw [hpend]
            exact List.Nodup.sublist (pendIds_sublist env store (itemsOf env)) hnd
          have hmark :
              markAll (scanRun env store).1 (scanRun env store).2 p.doc_id =
                applyMark ((scanRun env store).1 p.doc_id) p :=
            markAll_owner (scanRun env store).2 _ p hndp hmem
          rw [hpid] at hmark
          obtain ⟨w', hw'eq, hw'1, hw'2, hw'3, hw'4, hw'5⟩ :=
            applyMark_some_fields
              (writeSnap env (stateAt env fecha) fecha (store doc.id)) p
          refine ⟨w', ?_, by rw [hw'1, hws1], by rw [hw'2, hws2],
            by rw [hw'3, hws3], ?_, ?_⟩
          · rw [hstore, hmark, howner, hw'eq]
          · rw [hw'4, hwm1, hpws, hpstate]
            by_cases hws : wsAt env store doc fecha = true
            · rw [if_pos hws, if_pos ⟨hdryf, hok, hws⟩]
            · rw [if_neg hws, if_neg (fun hcon => hws hcon.2.2)]
          · rw [hw'5, hwm2, hpw5, hpexp]
            by_cases hw5 : w5At env store doc fecha = true
            · rw [if_pos hw5, if_pos ⟨hdryf, hok, hw5⟩]
            · rw [if_neg hw5, if_neg (fun hcon => hw5 hcon.2.2)]

lemma want_state_notify_self (s : String) : want_state_notify (some s) s = false := by
  simp [want_state_notify]

lemma want_5_notify_marker_self (d : Option Int) (f : String) :
    want_5_notify d (some f) f = false := by
  simp [want_5_notify]

/-- **C4.** On every check of an active document: the snapshot fields
`last_state`, `last_expiry` and `last_checked_at` are overwritten with
the current values unconditionally (whatever the dry-run flag and the
transport outcome); each notified-marker is advanced only when the
corresponding notification fired (`wsAt` / `w5At`) and the batch was
actually delivered (not a dry run, all sends accepted), and otherwise
keeps the value held before the check — in particular, when no snapshot
row existed (`store doc.id = none`), the row is created with both
notified-markers absent (`Option.bind` of `none` is `none`). -/
theorem snapshot_update_policy_C4 (env : Env) (sendOk : Nat → Bool) (dry : Bool)
    (store : Store) (v : Vehicle) (tipo : String) (doc : DocRow) (fecha : String)
    (hnd : (activeIds env (itemsOf env)).Nodup)
    (hit : (v, tipo) ∈ itemsOf env)
    (hact : activeDoc env v tipo = some (doc, fecha)) :
    ∃ n', (mainRun env sendOk dry store).store doc.id = some n' ∧
      n'.last_state = some (stateAt env fecha) ∧
      n'.last_expiry = some fecha ∧
      n'.last_checked_at = some env.now ∧
      n'.last_notified_state =
        (if dry = false ∧ sendAllOk sendOk (scanRun env store).2 = true ∧
            wsAt env store doc fecha = true
         then some (stateAt env fecha)
         else (store doc.id).bind Snap.last_notified_state) ∧
      n'.last_notified_5_expiry =
        (if dry = false ∧ sendAllOk sendOk (scanRun env store).2 = true ∧
            w5At env store doc fecha = true
         then some fecha
         else (store doc.id).bind Snap.last_notified_5_expiry) :=
  mainRun_store_active env sendOk dry store v tipo doc fecha hnd hit hact

/-- Witness for C4: on the concrete environment, doc 1 (5 days left, no
prior snapshot, delivered batch) ends with fresh snapshot fields, no
escalation marker, and its five-day marker set to the current expiry. -/
theorem snapshot_update_policy_C4_witness :
    ∃ n', (mainRun envW (fun _ => true) false storeW).store 1 = some n' ∧
      n'.last_state = some "Rojo" ∧
      n'.last_expiry = some "E5" ∧
      n'.last_checked_at = some "T1" ∧
      n'.last_notified_state = none ∧
      n'.last_notified_5_expiry = some "E5" := by
  obtain ⟨n', h1, h2, h3, h4, h5, h6⟩ :=
    snapshot_update_policy_C4 envW (fun _ => true) false storeW
      ⟨1, some "AA11", some "P1"⟩ "Permiso de Circulación"
      ⟨1, "Permiso de Circulación", some "E5"⟩ "E5"
      (by decide) (by decide) (by decide)
  refine ⟨n', h1, h2, h3, h4, ?_, ?_⟩
  · rw [h5]; decide
  · rw [h6]; decide

/-- **C5.** Idempotence: after a full check run in send mode whose sends
all succeed, an immediately repeated run over the same environment emits
zero notification intents, and leaves `last_notified_state` and
`last_notified_5_expiry` unchanged for every document row. -/
theorem run_idempotence_C5 (env : Env) (store0 : Store)
    (sendOk sendOk2 : Nat → Bool) (dry2 : Bool)
    (hnd : (activeIds env (itemsOf env)).Nodup)
    (hok : ∀ i, sendOk i = true) :
    (mainRun env sendOk2 dry2 (mainRun env sendOk false store0).store).pending = [] ∧
    ∀ j,
      ((mainRun env sendOk2 dry2 (mainRun env sendOk false store0).store).store j).bind
          Snap.last_notified_state =
        ((mainRun env sendOk false store0).store j).bind Snap.last_notified_state ∧
      ((mainRun env sendOk2 dry2 (mainRun env sendOk false store0).store).store j).bind
          Snap.last_notified_5_expiry =
        ((mainRun env sendOk false store0).store j).bind Snap.last_notified_5_expiry := by
  have hallok : sendAllOk sendOk (scanRun env store0).2 = true :=
    sendAllOk_of_all sendOk hok _
  have hquiet : ∀ it ∈ itemsOf env,
      pendOf env (mainRun env sendOk false store0).store it = none := by
    intro it hit
    cases hact : activeDoc env it.1 it.2 with
    | none => exact pendOf_inactive env _ it hact
    | some pr =>
      obtain ⟨doc, fecha⟩ := pr
      obtain ⟨n', hn', h1, h2, h3, h4, h5⟩ :=
        mainRun_store_active env sendOk false store0 it.1 it.2 doc fecha hnd hit hact
      have hws2 : wsAt env (mainRun env sendOk false store0).store doc fecha = false := by
        simp only [wsAt, hn', Option.some_bind, h1]
        exact want_state_notify_self (stateAt env fecha)
      have hw52 : w5At env (mainRun env sendOk false store0).store doc fecha = false := by
        simp only [w5At, hn', Option.some_bind, h5]
        by_cases hw5 : w5At env store0 doc fecha = true
        · rw [if_pos ⟨by trivial, hallok, hw5⟩]
          exact want_5_notify_marker_self (daysOf env fecha) fecha
        · rw [if_neg (fun hcon => hw5 hcon.2.2)]
          have hfalse : w5At env store0 doc fecha = false := by
            cases hb : w5At env store0 doc fecha
            · rfl
            · exact absurd hb hw5
          exact hfalse
      rw [pendOf_active env _ it doc fecha hact, hws2, hw52]
      rfl
  have hnil : (scanRun env (mainRun env sendOk false store0).store).2 = [] :=
    (scanItems_snd_char env (itemsOf env) _ hnd).trans
      (List.filterMap_eq_nil_iff.mpr hquiet)
  constructor
  · rw [mainRun_pending_eq]
    exact hnil
  · intro j
    have hst : (mainRun env sendOk2 dry2 (mainRun env sendOk false store0).store).store =
        (scanRun env (mainRun env sendOk false store0).store).1 :=
      mainRun_store_of_pending_nil env sendOk2 dry2 _ hnil
    rw [hst]
    exact ⟨(scanItems_markers env (itemsOf env) _ j).1,
           (scanItems_markers env (itemsOf env) _ j).2⟩

/-- Witness for C5 on the concrete environment: the second run emits
nothing and doc 1's markers are unchanged. -/
theorem run_idempotence_C5_witness :
    (mainRun envW (fun _ => true) false
       (mainRun envW (fun _ => true) false storeW).store).pending = [] ∧
    ((mainRun envW (fun _ => true) false
        (mainRun envW (fun _ => true) false storeW).store).store 1).bind
        Snap.last_notified_5_expiry =
      ((mainRun envW (fun _ => true) false storeW).store 1).bind
        Snap.last_notified_5_expiry :=
  ⟨(run_idempotence_C5 envW storeW (fun _ => true) (fun _ => true) false
      (by decide) (fun i => rfl)).1,
   ((run_idempotence_C5 envW storeW (fun _ => true) (fun _ => true) false
      (by decide) (fun i => rfl)).2 1).2⟩

/-- **C6 counterexample.** When the transport accepts message 0 and
rejects message 1, the run of `reminders.py` raises out of
`send_messages`: message 0 was handed over (`sent = 1`), yet its
five-day marker (doc 1) is NOT persisted, and the run exits non-zero —
contradicting the claim that already-sent messages still get their
notified-markers persisted and that the run still reports success for
them. -/
theorem send_failure_ce_C6 :
    (mainRun envW (fun i => decide (i = 0)) false storeW).sent = 1 ∧
    (mainRun envW (fun i => decide (i = 0)) false storeW).sendFailed = true ∧
    ((mainRun envW (fun i => decide (i = 0)) false storeW).store 1).bind
        Snap.last_notified_5_expiry = none ∧
    (mainRun envW (fun i => decide (i = 0)) false storeW).exitOk = false := by
  decide

/-- **C6 (amended).** When the Mail Sender rejects one message of the
batch, the run aborts: the raise propagates out of `send_messages`, the
mark-notified loop never runs, so **no** message of the batch — neither
the failed one nor the ones already sent — gets its notified-markers
persisted (they keep the values held before the run), and the run exits
non-zero instead of reporting success for the messages that did
succeed. -/
theorem send_failure_C6_amended (env : Env) (sendOk : Nat → Bool) (store : Store)
    (h : (mainRun env sendOk false store).sendFailed = true) :
    (mainRun env sendOk false store).exitOk = false ∧
    ∀ j,
      ((mainRun env sendOk false store).store j).bind Snap.last_notified_state =
        (store j).bind Snap.last_notified_state ∧
      ((mainRun env sendOk false store).store j).bind Snap.last_notified_5_expiry =
        (store j).bind Snap.last_notified_5_expiry := by
  obtain ⟨hst, hexit⟩ := mainRun_store_of_sendFailed env sendOk false store h
  refine ⟨hexit, fun j => ?_⟩
  rw [hst]
  exact ⟨(scanItems_markers env (itemsOf env) store j).1,
         (scanItems_markers env (itemsOf env) store j).2⟩

/-- Witness for amended C6 on the concrete failing batch. -/
theorem send_failure_C6_amended_witness :
    (mainRun envW (fun i => decide (i = 0)) false storeW).exitOk = false ∧
    ((mainRun envW (fun i => decide (i = 0)) false storeW).store 2).bind
        Snap.last_notified_state = (storeW 2).bind Snap.last_notified_state :=
  ⟨(send_failure_C6_amended envW (fun i => decide (i = 0)) storeW (by decide)).1,
   ((send_failure_C6_amended envW (fun i => decide (i = 0)) storeW (by decide)).2 2).1⟩

/-- **C7 counterexample.** A check run over the concrete environment
emits an escalation intent (`Verde → Amarillo`) whose delivery fails;
yet the next run over the same unchanged document data emits no intent
at all: the escalation decision reads `last_state`, which the failed run
already overwrote unconditionally — so the failed escalation is never
retried, contradicting the claim. -/
theorem failed_retry_ce_C7 :
    (∃ p ∈ (mainRun envE (fun _ => false) false storeE).pending,
       p.want_state = true) ∧
    (mainRun envE (fun _ => false) false storeE).sendFailed = true ∧
    (mainRun envE (fun _ => false) false
       (mainRun envE (fun _ => false) false storeE).store).pending = [] := by
  decide

/-- **C7 (amended).** After a run whose batch delivery failed, over the
same unchanged document data: a five-day intent is emitted again on the
next run (its marker was never set and the day count is unchanged), but
the escalation is never re-emitted for that document — every intent the
next run emits for it has `want_state = false` (also when escalation and
five-day had fired in the same check), and an escalation-only intent
vanishes entirely — because the escalation decision reads `last_state`,
which the failed run already overwrote with the current state. -/
theorem failed_retry_C7_amended (env : Env) (store0 : Store)
    (sendOk sendOk2 : Nat → Bool) (dry2 : Bool)
    (it : Vehicle × String) (doc : DocRow) (fecha : String) (p : PendingMsg)
    (hnd : (activeIds env (itemsOf env)).Nodup)
    (hit : it ∈ itemsOf env)
    (hact : activeDoc env it.1 it.2 = some (doc, fecha))
    (hp : pendOf env store0 it = some p)
    (hfail : (mainRun env sendOk false store0).sendFailed = true) :
    (p.want_5 = true →
      ∃ p2 ∈ (mainRun env sendOk2 dry2
          (mainRun env sendOk false store0).store).pending,
        p2.doc_id = doc.id ∧ p2.want_5 = true) ∧
    (p.want_5 = false →
      ∀ p2 ∈ (mainRun env sendOk2 dry2
          (mainRun env sendOk false store0).store).pending,
        p2.doc_id ≠ doc.id) ∧
    (∀ p2 ∈ (mainRun env sendOk2 dry2
        (mainRun env sendOk false store0).store).pending,
      p2.doc_id = doc.id → p2.want_state = false) := by
  obtain ⟨hst, -⟩ := mainRun_store_of_sendFailed env sendOk false store0 hfail
  have howner : (mainRun env sendOk false store0).store doc.id =
      some (writeSnap env (stateAt env fecha) fecha (store0 doc.id)) := by
    rw [hst]
    exact scanItems_fst_owner env (itemsOf env) store0 it doc fecha hit hact hnd
  obtain ⟨-, -, -⟩ := writeSnap_fields env (stateAt env fecha) fecha (store0 doc.id)
  have hws2 : wsAt env (mainRun env sendOk false store0).store doc fecha = false := by
    simp only [wsAt, howner, Option.some_bind,
      (writeSnap_fields env (stateAt env fecha) fecha (store0 doc.id)).1]
    exact want_state_notify_self (stateAt env fecha)
  have hw52 : w5At env (mainRun env sendOk false store0).store doc fecha =
      w5At env store0 doc fecha := by
    simp only [w5At, howner, Option.some_bind,
      (writeSnap_markers env (stateAt env fecha) fecha (store0 doc.id)).2]
  obtain ⟨hpid, -, -, -, hpw5⟩ := pendOf_fields env store0 it doc fecha p hact hp
  have hpend2 : (mainRun env sendOk2 dry2 (mainRun env sendOk false store0).store).pending =
      (itemsOf env).filterMap (pendOf env (mainRun env sendOk false store0).store) := by
    rw [mainRun_pending_eq]
    exact scanItems_snd_char env (itemsOf env) _ hnd
  refine ⟨?_, ?_, ?_⟩
  · intro h5
    have hw5t : w5At env (mainRun env sendOk false store0).store doc fecha = true := by
      rw [hw52, ← hpw5]; exact h5
    have hp2 : ∃ p2, pendOf env (mainRun env sendOk false store0).store it = some p2 := by
      rw [pendOf_active env _ it doc fecha hact, hw5t]
      simp
    obtain ⟨p2, hp2⟩ := hp2
    obtain ⟨hp2id, -, -, -, hp2w5⟩ :=
      pendOf_fields env _ it doc fecha p2 hact hp2
    refine ⟨p2, ?_, hp2id, ?_⟩
    · rw [hpend2]
      exact List.mem_filterMap.mpr ⟨it, hit, hp2⟩
    · rw [hp2w5]; exact hw5t
  · intro h5 p2 hp2mem heq
    have hw5f : w5At env (mainRun env sendOk false store0).store doc fecha = false := by
      rw [hw52, ← hpw5]; exact h5
    have hpnone : pendOf env (mainRun env sendOk false store0).store it = none := by
      rw [pendOf_active env _ it doc fecha hact, hws2, hw5f]
      rfl
    rw [hpend2] at hp2mem
    obtain ⟨it', hit', hpit'⟩ := List.mem_filterMap.mp hp2mem
    have hid' : docIdOf env it' = some p2.doc_id :=
      pendOf_docId env _ it' p2 hpit'
    have hid : docIdOf env it = some doc.id := by simp [docIdOf, hact]
    have heqit : it' = it :=
      nodup_filterMap_inj (docIdOf env) (itemsOf env) hnd it' hit' it hit
        doc.id (heq ▸ hid') hid
    rw [heqit, hpnone] at hpit'
    cases hpit'
  · intro p2 hp2mem heq
    rw [hpend2] at hp2mem
    obtain ⟨it', hit', hpit'⟩ := List.mem_filterMap.mp hp2mem
    have hid' : docIdOf env it' = some p2.doc_id :=
      pendOf_docId env _ it' p2 hpit'
    have hid : docIdOf env it = some doc.id := by simp [docIdOf, hact]
    have heqit : it' = it :=
      nodup_filterMap_inj (docIdOf env) (itemsOf env) hnd it' hit' it hit
        doc.id (heq ▸ hid') hid
    rw [heqit] at hpit'
    obtain ⟨-, -, -, hp2ws, -⟩ :=
      pendOf_fields env _ it doc fecha p2 hact hpit'
    rw [hp2ws]
    exact hws2

/-- The mixed-case check (escalation and five-day fired together) does
produce a pending entry. -/
lemma pendM_isSome : (pendOf envM storeM
    (⟨1, some "CC33", none⟩, "Permiso de Circulación")).isSome = true := by
  decide

/-- Witness for amended C7 on the mixed case: doc 1 fired both the
escalation (`Amarillo → Rojo`) and the five-day warning in a run whose
delivery failed; the next run emits its five-day warning again, and
every intent it emits for doc 1 has `want_state = false`. -/
theorem failed_retry_C7_amended_witness :
    (∃ p2 ∈ (mainRun envM (fun _ => false) false
        (mainRun envM (fun _ => false) false storeM).store).pending,
      p2.doc_id = 1 ∧ p2.want_5 = true) ∧
    (∀ p2 ∈ (mainRun envM (fun _ => false) false
        (mainRun envM (fun _ => false) false storeM).store).pending,
      p2.doc_id = 1 → p2.want_state = false) :=
  ⟨(failed_retry_C7_amended envM storeM (fun _ => false) (fun _ => false) false
    (⟨1, some "CC33", none⟩, "Permiso de Circulación")
    ⟨1, "Permiso de Circulación", some "E5"⟩ "E5"
    ((pendOf envM storeM
      (⟨1, some "CC33", none⟩, "Permiso de Circulación")).get pendM_isSome)
    (by decide) (by decide) (by decide)
    (Option.some_get pendM_isSome).symm (by decide)).1 (by decide),
   (failed_retry_C7_amended envM storeM (fun _ => false) (fun _ => false) false
    (⟨1, some "CC33", none⟩, "Permiso de Circulación")
    ⟨1, "Permiso de Circulación", some "E5"⟩ "E5"
    ((pendOf envM storeM
      (⟨1, some "CC33", none⟩, "Permiso de Circulación")).get pendM_isSome)
    (by decide) (by decide) (by decide)
    (Option.some_get pendM_isSome).symm (by decide)).2.2⟩

/-- **C8 (amended).** The urgency aggregator scans the five required
types in canonical order and, provided every rank score is below the
`10**9` starting accumulator (true of every Python-representable date),
returns the minimum rank score, attained by the first type in canonical
order on ties, and every vehicle yields exactly one urgency tuple (the
embedding is a total function).  A missing or no-expiry document
contributes the sentinel `-9999`, which is strictly more urgent than any
real day count **greater than `-9999`** (not than every real day count):
a vehicle with zero documents outranks any vehicle whose documents all
have real day counts above the sentinel. -/
theorem urgency_aggregator_C8_amended (parse : String → Option Int) (today : Int)
    (docs docs2 : String → Option DocRow)
    (hb : ∀ t ∈ DOC_TYPES, d_cmpOf parse today docs t < 1000000000)
    (h2 : ∀ t ∈ DOC_TYPES, ∃ d : Int,
        (get_doc_status parse today (docs2 t)).days = some d ∧ -9999 < d) :
    (∃ l1 t l2, DOC_TYPES = l1 ++ t :: l2 ∧
       get_vehicle_urgency parse today docs =
         (d_cmpOf parse today docs t, t,
          (get_doc_status parse today (docs t)).expiry) ∧
       (∀ u ∈ l1, d_cmpOf parse today docs t < d_cmpOf parse today docs u) ∧
       (∀ u ∈ l2, d_cmpOf parse today docs t ≤ d_cmpOf parse today docs u)) ∧
    (∀ t ∈ DOC_TYPES, (get_doc_status parse today (docs t)).days = none →
       d_cmpOf parse today docs t = -9999) ∧
    (get_vehicle_urgency parse today (fun _ => none)).1 <
      (get_vehicle_urgency parse today docs2).1 := by
  refine ⟨?_, ?_, ?_⟩
  · rcases urg_foldl_char parse today docs DOC_TYPES (1000000000, "", none) with
      ⟨heq, hall⟩ | ⟨l1, t, l2, hre, heq, hlt, hl1, hl2⟩
    · exfalso
      have hmem : "Permiso de Circulación" ∈ DOC_TYPES := by decide
      exact absurd (hall _ hmem) (not_le.mpr (hb _ hmem))
    · exact ⟨l1, t, l2, hre, heq, hl1, hl2⟩
  · intro t ht hnone
    simp [d_cmpOf, hnone]
  · have hzero : (get_vehicle_urgency parse today (fun _ => none)).1 = -9999 := rfl
    rcases urg_foldl_char parse today docs2 DOC_TYPES (1000000000, "", none) with
      ⟨heq, hall⟩ | ⟨l1, t, l2, hre, heq, hlt, hl1, hl2⟩
    · rw [hzero]
      rw [show get_vehicle_urgency parse today docs2 = (1000000000, "", none) from heq]
      decide
    · rw [hzero]
      rw [show get_vehicle_urgency parse today docs2 =
        (d_cmpOf parse today docs2 t, t,
         (get_doc_status parse today (docs2 t)).expiry) from heq]
      have hmem : t ∈ DOC_TYPES := by
        rw [hre]; exact List.mem_append.mpr (Or.inr (List.mem_cons_self t l2))
      obtain ⟨d, hd, hgt⟩ := h2 t hmem
      show (-9999 : Int) < d_cmpOf parse today docs2 t
      rw [show d_cmpOf parse today docs2 t = d by simp [d_cmpOf, hd]]
      exact hgt

/-- Witness for amended C8: a zero-document vehicle outranks a vehicle
whose five documents all expire 40 days from now. -/
theorem urgency_aggregator_C8_amended_witness :
    (get_vehicle_urgency parseW2 100 (fun _ => none)).1 <
      (get_vehicle_urgency parseW2 100 docs2W).1 :=
  (urgency_aggregator_C8_amended parseW2 100 (fun _ => none) docs2W
    (fun t _ => by show ((-9999 : Int) < 1000000000); decide)
    (fun t _ => ⟨40, rfl, by decide⟩)).2.2
